import Mathlib

/-!
Shallow embedding of `onnxruntime/python/tools/transformers/gpt2_helper.py`
(the GPT-2 ONNX conversion/parity-test helper), together with proofs of the
behavioural properties claimed for it.

Conventions of the embedding:
* Tensors of floats are modelled with rational entries (`ℚ`); integer tensors
  with `Int` entries.  A 2-D tensor is a list of rows.
* Random draws are threaded explicitly: a raw random source is a function (or
  number) supplied by the caller, and a uniform draw `randint(low, high)`
  (exclusive high) is modelled as `low + raw % (high - low)`; Python's
  `random.randint(a, b)` (inclusive) is modelled as `a + raw % (b - a + 1)`.
* Python exceptions (attribute errors on `None`, failed asserts, invalid
  `randint` bounds) are modelled by returning `none` / `Option.none`.
-/

namespace Gpt2Helper

/-- Numeric precision of a torch tensor (`torch.float16` / `torch.float32`). -/
inductive DType where
  | float16
  | float32
  deriving DecidableEq, Repr

/-- `numpy.prod` of a shape: the element count the shape implies. -/
def prodShape (shape : List Nat) : Nat :=
  shape.foldl (· * ·) 1

/-- The model-class table `MODEL_CLASSES` (keys). -/
inductive ModelClass where
  | GPT2LMHeadModel
  | GPT2LMHeadModel_NoPadding
  | GPT2Model
  deriving DecidableEq, Repr

/-- Second component of the `MODEL_CLASSES` entry: name of the first output. -/
def modelClassOutputName : ModelClass → String
  | .GPT2LMHeadModel => "logits"
  | .GPT2LMHeadModel_NoPadding => "logits"
  | .GPT2Model => "last_state"

/-- `Gpt2Helper.get_output_shapes`: dictionary from output name to shape,
one entry for the first output and one `present_i` per layer. -/
def get_output_shapes (batch_size past_sequence_length sequence_length : Nat)
    (num_attention_heads hidden_size num_layer vocab_size : Nat)
    (model_class : ModelClass) : List (String × List Nat) :=
  let output_name := modelClassOutputName model_class
  let last_state_shape :=
    [batch_size, sequence_length,
     if output_name = "logits" then vocab_size else hidden_size]
  let present_state_shape :=
    [2, batch_size, num_attention_heads,
     past_sequence_length + sequence_length,
     hidden_size / num_attention_heads]
  (output_name, last_state_shape) ::
    (List.range num_layer).map (fun i => ("present_" ++ toString i, present_state_shape))

/-- A pre-allocated flat (1-D) output buffer: its element count
(`torch.Tensor.nelement`), dtype and device.  The contents of a freshly
allocated buffer (`torch.empty`) are unspecified and never relied upon. -/
structure Buffer where
  numel : Nat
  dtype : DType
  device : String
  deriving DecidableEq, Repr

/-- `Gpt2Helper.get_output_buffers`: a buffer map (output name → 1-D tensor
with space for the given shape). -/
def get_output_buffers (output_shapes : List (String × List Nat))
    (device : String) (is_float16 : Bool) : String → Option Buffer :=
  let data_type := if is_float16 then DType.float16 else DType.float32
  fun k => (output_shapes.find? (fun p => p.1 = k)).map
    (fun p => { numel := prodShape p.2, dtype := data_type, device := device })

/-- `Gpt2Helper.auto_increase_buffer_size`: for each name in `output_shapes`,
assert the name has a buffer (model the failed assert as `none`), and if the
required element count exceeds the buffer's element count, replace it by a
fresh flat buffer of exactly that many elements with the same dtype and
device. -/
def auto_increase_buffer_size (output_buffers : String → Option Buffer)
    (output_shapes : List (String × List Nat)) : Option (String → Option Buffer) :=
  match output_shapes with
  | [] => some output_buffers
  | (key, shape) :: rest =>
    match output_buffers key with
    | none => none
    | some buffer =>
      let updated : String → Option Buffer :=
        if prodShape shape > buffer.numel then
          fun k => if k = key then
              some { numel := prodShape shape, dtype := buffer.dtype, device := buffer.device }
            else output_buffers k
        else output_buffers
      auto_increase_buffer_size updated rest

/-- A per-layer past (cache) tensor of `get_dummy_inputs`: its shape and
dtype.  Its values are uniform random draws in `[0,1)` (`torch.rand`); no
verified property depends on them, only on shape and dtype. -/
structure PastTensor where
  shape : List Nat
  dtype : DType
  deriving DecidableEq, Repr

/-- The `Gpt2Inputs` bundle (input_ids, position_ids, attention_mask, past). -/
structure Gpt2Inputs where
  input_ids : List (List Int)
  position_ids : Option (List (List Int))
  attention_mask : Option (List (List ℚ))
  past : List PastTensor
  deriving Repr

/-- Running cumulative sum with accumulator (`torch.cumsum` along the last
axis, for one row). -/
def cumsumFrom (acc : Int) : List Int → List Int
  | [] => []
  | x :: xs => (acc + x) :: cumsumFrom (acc + x) xs

/-- `row.cumsum(-1)` for one row. -/
def cumsum (row : List Int) : List Int :=
  cumsumFrom 0 row

/-- `torch.Tensor.long()` on a float entry.  The masks this helper builds
have entries in {0, 1}, where truncation towards zero and floor coincide. -/
def toLong (q : ℚ) : Int :=
  ⌊q⌋

/-- One row of the position-id derivation in `get_dummy_inputs`:
`(attention_mask.long().cumsum(-1) - 1)`, then
`masked_fill_(position_ids < 0, 0)`, then `[:, past_sequence_length:]`. -/
def positionIdsRow (maskRow : List ℚ) (past_sequence_length : Nat) : List Int :=
  ((((cumsum (maskRow.map toLong)).map (fun x => x - 1)).map
      (fun x => max x 0)).drop past_sequence_length)

/-- The `input_ids` block of `get_dummy_inputs`:
`torch.randint(low=0, high=vocab_size - 1, size=(batch_size, sequence_length))`
(exclusive high), with `idsRaw b t` the raw draw behind element `(b, t)`:
its value is `idsRaw b t % (vocab_size - 1)`. -/
def dummyInputIds (batch_size sequence_length vocab_size : Nat)
    (idsRaw : Nat → Nat → Nat) : List (List Int) :=
  (List.range batch_size).map (fun b =>
    (List.range sequence_length).map (fun t =>
      ((idsRaw b t % (vocab_size - 1) : Nat) : Int)))

/-- The `attention_mask` block of `get_dummy_inputs`: all ones of shape
`(batch_size, total_sequence_length)`; when the total length is at least 2,
one column — `padding_position = random.randint(0, total_sequence_length - 1)`,
modelled as `padRaw % total_sequence_length` — is zeroed in every row. -/
def dummyAttentionMask (batch_size total_sequence_length : Nat)
    (padRaw : Nat) : List (List ℚ) :=
  (List.range batch_size).map (fun _ =>
    (List.range total_sequence_length).map (fun j =>
      if 2 ≤ total_sequence_length ∧ j = padRaw % total_sequence_length
      then (0 : ℚ) else 1))

/-- `Gpt2Helper.get_dummy_inputs`.  Randomness is threaded explicitly (see
`dummyInputIds` and `dummyAttentionMask`).  `torch.randint` with
`high <= low` raises, modelled by `none`; so does `attention_mask.long()`
when `attention_mask` is `None` (the `has_position_ids` branch with
`has_attention_mask=False`). -/
def get_dummy_inputs (batch_size past_sequence_length sequence_length : Nat)
    (num_attention_heads hidden_size num_layer vocab_size : Nat)
    (float16 : Bool) (has_position_ids has_attention_mask : Bool)
    (idsRaw : Nat → Nat → Nat) (padRaw : Nat) : Option Gpt2Inputs :=
  let float_type := if float16 then DType.float16 else DType.float32
  let past_shape := [2, batch_size, num_attention_heads, past_sequence_length,
                     hidden_size / num_attention_heads]
  let past := List.replicate num_layer (PastTensor.mk past_shape float_type)
  if vocab_size - 1 ≤ 0 then none
  else
    let input_ids := dummyInputIds batch_size sequence_length vocab_size idsRaw
    let attention_mask : Option (List (List ℚ)) :=
      if has_attention_mask then
        some (dummyAttentionMask batch_size (past_sequence_length + sequence_length) padRaw)
      else none
    if has_position_ids then
      match attention_mask with
      | none => none
      | some mask =>
        some { input_ids := input_ids
               position_ids := some (mask.map (fun row => positionIdsRow row past_sequence_length))
               attention_mask := attention_mask
               past := past }
    else
      some { input_ids := input_ids
             position_ids := none
             attention_mask := attention_mask
             past := past }

/-- `numpy.allclose(a, b, rtol, atol)` on two flattened tensors of equal
shape: every element satisfies `|a - b| <= atol + rtol * |b|`.  (The callers
below pair tensors of equal shape; shape agreement is a hypothesis of the
theorems where it matters.) -/
def allclose (a b : List ℚ) (rtol atol : ℚ) : Bool :=
  (a.zip b).all (fun p => decide (|p.1 - p.2| ≤ atol + rtol * |p.2|))

/-- The PyTorch output collection as consumed by `compare_outputs` /
`diff_outputs`: `torch_outputs[0]` is the primary output,
`torch_outputs[1]` the list of per-layer present tensors.  Tensors are
flattened to element lists. -/
structure TorchOutputs where
  primary : List ℚ
  present : List (List ℚ)
  deriving Repr

/-- The per-layer loop of `compare_outputs`: for each remaining ONNX Runtime
output (`ort_outputs[1 + layer]`) compare against `torch_outputs[1][layer]`,
and-accumulating into `acc`. Indexing `torch_outputs[1][layer]` out of range
raises (modelled as `none`). -/
def compareLayers (ortRest torchPresent : List (List ℚ)) (rtol atol : ℚ)
    (acc : Bool) : Option Bool :=
  match ortRest, torchPresent with
  | [], _ => some acc
  | _ :: _, [] => none
  | o :: os, p :: ps => compareLayers os ps rtol atol (acc && allclose o p rtol atol)

/-- `Gpt2Helper.compare_outputs`: `allclose` on the primary outputs, then on
each of the `len(ort_outputs) - 1` layer outputs; returns the conjunction.
`ort_outputs[0]` on an empty list raises (modelled as `none`). -/
def compare_outputs (torch_outputs : TorchOutputs) (ort_outputs : List (List ℚ))
    (rtol atol : ℚ) : Option Bool :=
  match ort_outputs with
  | [] => none
  | o0 :: rest =>
    let is_close := allclose o0 torch_outputs.primary rtol atol
    compareLayers rest torch_outputs.present rtol atol is_close

/-- `Gpt2Helper.diff_outputs`: maximum absolute difference (or maximum
relative difference with an `1e-6` guard) over the primary output only. -/
def diff_outputs (torch_outputs : TorchOutputs) (ort_outputs : List (List ℚ))
    (relative : Bool) : Option ℚ :=
  match ort_outputs with
  | [] => none
  | o0 :: _ =>
    let diff := (torch_outputs.primary.zip o0).map (fun p => |p.1 - p.2|)
    match diff with
    | [] => none
    | d :: ds =>
      if relative then
        match (torch_outputs.primary.zip o0).map
            (fun p => |p.1 - p.2| / (|p.1| + 1 / 1000000)) with
        | [] => none
        | r :: rs => some (rs.foldl max r)
      else
        some (ds.foldl max d)

/-- The two candidate-engine invocation modes of the Dual-Engine Runner. -/
inductive EngineMode where
  | valuePassing
  | boundBuffer
  deriving DecidableEq, Repr

/-- Session-level buffer allocation in `test_parity` (lines 554-558):
`output_buffers` starts as `None` and is populated (from the maximal output
shapes with `max_batch_size=8`, `max_past_seq_len=4`, `max_seq_len=2`) only
when `use_io_binding` is true. -/
def test_parity_session_buffers (use_io_binding : Bool)
    (num_attention_heads hidden_size num_layer vocab_size : Nat)
    (model_class : ModelClass) (device : String) (is_float16 : Bool) :
    Option (String → Option Buffer) :=
  if use_io_binding then
    some (get_output_buffers
      (get_output_shapes 8 4 2 num_attention_heads hidden_size num_layer
        vocab_size model_class) device is_float16)
  else none

/-- Per-trial candidate-engine dispatch in `test_parity` (lines 574-580):
when `use_io_binding` is true the trial calls `onnxruntime_inference`
(value-passing mode); otherwise it calls
`onnxruntime_inference_with_binded_io` (bound-buffer mode), which
dereferences the session buffer map — a `None` map raises (modelled as
`none`). -/
def test_parity_candidate_mode (use_io_binding : Bool)
    (session_buffers : Option (String → Option Buffer)) : Option EngineMode :=
  if use_io_binding then
    some EngineMode.valuePassing
  else
    match session_buffers with
    | none => none
    | some _ => some EngineMode.boundBuffer

/-- The counting loop of `test_parity` (lines 560-584): `passed_test_cases`
starts at 0 and is incremented for every trial whose `compare_outputs`
verdict (`is_all_close`) is true. -/
def test_parity_passed (trial_results : List Bool) : Nat :=
  trial_results.foldl (fun acc is_all_close =>
    if is_all_close then acc + 1 else acc) 0

/-- The informational logging condition of `test_parity` (line 586):
`passed_test_cases > 0.95 * total_test_cases`, evaluated over ℚ. -/
def test_parity_log_acceptable (trial_results : List Bool) : Bool :=
  decide ((test_parity_passed trial_results : ℚ) >
    95 / 100 * (trial_results.length : ℚ))

/-- The returned verdict of `test_parity` (line 588):
`passed_test_cases == total_test_cases`. -/
def test_parity_verdict (trial_results : List Bool) : Bool :=
  decide (test_parity_passed trial_results = trial_results.length)

/-! ### Device memory model for the bound-buffer read-back

`get_outputs_from_io_binding_buffer` works on live device buffers:
`buffer[0:prod(shape)]` and `.reshape(shape)` are views aliasing the
buffer's storage, while `.clone()` copies the viewed elements into freshly
allocated storage.  To verify the copy-detachment claim we model storage as
a heap of rational cells with a bump allocator. -/

/-- Flat storage: cell contents plus the next free address. -/
structure Heap where
  data : Nat → ℚ
  next : Nat

/-- A 1-D view into the heap: start address and element count. -/
structure TensorRef where
  ptr : Nat
  numel : Nat
  deriving DecidableEq, Repr

/-- The elements a view denotes in a heap. -/
def readTensor (h : Heap) (t : TensorRef) : List ℚ :=
  (List.range t.numel).map (fun i => h.data (t.ptr + i))

/-- Overwrite one cell of the heap (a later trial writing into a live
buffer). -/
def writeHeap (h : Heap) (a : Nat) (v : ℚ) : Heap :=
  { data := fun x => if x = a then v else h.data x, next := h.next }

/-- `.clone()`: allocate fresh storage for the view and copy its elements. -/
def clone (h : Heap) (t : TensorRef) : Heap × TensorRef :=
  let dst := h.next
  ({ data := fun a => if dst ≤ a ∧ a < dst + t.numel then h.data (t.ptr + (a - dst)) else h.data a
     next := dst + t.numel },
   { ptr := dst, numel := t.numel })

/-- One iteration of `get_outputs_from_io_binding_buffer`:
`buffer[0:numpy.prod(shape)].reshape(shape).clone().detach()` — slice the
first `prod(shape)` elements of the buffer (a view at the same address) and
clone.  (`.reshape` and `.detach` do not move or copy data.) -/
def readBackOne (h : Heap) (buffer : TensorRef) (shape : List Nat) :
    Heap × TensorRef :=
  clone h { ptr := buffer.ptr, numel := prodShape shape }

/-- `Gpt2Helper.get_outputs_from_io_binding_buffer`: for each session output
(here: its buffer and its logical shape, in session output order), slice,
reshape and clone; returns the cloned tensors in order. -/
def get_outputs_from_io_binding_buffer (h : Heap)
    (outputs : List (TensorRef × List Nat)) : Heap × List TensorRef :=
  match outputs with
  | [] => (h, [])
  | (buffer, shape) :: rest =>
    let step := readBackOne h buffer shape
    let restResult := get_outputs_from_io_binding_buffer step.1 rest
    (restResult.1, step.2 :: restResult.2)

/-! ### IO binding (`prepare_io_binding`) -/

/-- A torch tensor as seen by the binding code: device, shape, data pointer,
contiguity. -/
structure TensorDesc where
  device : String
  shape : List Nat
  data_ptr : Nat
  contiguous : Bool
  deriving DecidableEq, Repr

/-- Element type tag passed to `bind_input` / `bind_output`
(`numpy.longlong`, `numpy.float16`, `numpy.float32`). -/
inductive BindDType where
  | longlong
  | npfloat16
  | npfloat32
  deriving DecidableEq, Repr

/-- One `bind_input` / `bind_output` record. -/
structure Binding where
  name : String
  device : String
  dtype : BindDType
  shape : List Nat
  ptr : Nat
  deriving DecidableEq, Repr

/-- `io_binding.bind_input` / `bind_output`: IO binding asserts that the
data pointer shall not be zero (per the comment in `prepare_io_binding`);
a zero pointer is a failed bind, modelled as `none`. -/
def bind_one (name : String) (device : String) (dtype : BindDType)
    (shape : List Nat) (ptr : Nat) : Option Binding :=
  if ptr = 0 then none
  else some { name := name, device := device, dtype := dtype, shape := shape, ptr := ptr }

/-- The past-input loop of `prepare_io_binding` (lines 440-450): for each
`past_i`, assert contiguity, and if its data pointer is zero (empty past
tensor) substitute the data pointer of `input_ids` before binding. -/
def bindPastInputs (input_ids_ptr : Nat) (float_type : BindDType)
    (past : List TensorDesc) (i : Nat) : Option (List Binding) :=
  match past with
  | [] => some []
  | past_i :: rest =>
    if past_i.contiguous then
      let data_ptr := if past_i.data_ptr = 0 then input_ids_ptr else past_i.data_ptr
      match bind_one ("past_" ++ toString i) past_i.device float_type past_i.shape data_ptr with
      | none => none
      | some b =>
        match bindPastInputs input_ids_ptr float_type rest (i + 1) with
        | none => none
        | some bs => some (b :: bs)
    else none

/-- The output-binding loop of `prepare_io_binding` (lines 462-468): bind
each session output to its pre-allocated buffer, with the trial's logical
shape.  The buffer's data pointer is an extra datum of the model (the flat
`Buffer` record does not carry an address). -/
def bindOutputs (float_type : BindDType)
    (outputs : List (String × String × Nat)) (output_shapes : String → List Nat) :
    Option (List Binding) :=
  match outputs with
  | [] => some []
  | (output_name, deviceAndPtr) :: rest =>
    match bind_one output_name deviceAndPtr.1 float_type
        (output_shapes output_name) deviceAndPtr.2 with
    | none => none
    | some b =>
      match bindOutputs float_type rest output_shapes with
      | none => none
      | some bs => some (b :: bs)

/-- The bindings accumulated by `prepare_io_binding`. -/
structure IoBinding where
  input_ids_binding : Binding
  past_bindings : List Binding
  attention_mask_binding : Option Binding
  position_ids_binding : Option Binding
  output_bindings : List Binding
  deriving Repr

/-- `Gpt2Helper.prepare_io_binding`: bind `input_ids` (asserting
contiguity), then the past tensors (with the null-pointer substitution),
then `attention_mask` and `position_ids` when present, then every session
output into its buffer.  `float_type` is chosen from the dtype of the first
session output's buffer.  Failed asserts and failed binds are `none`.
`past = none` models Python `past is None`; the outputs are given as
`(name, device, pointer)` triples in session output order. -/
def prepare_io_binding (input_ids : TensorDesc)
    (position_ids attention_mask : Option TensorDesc)
    (past : Option (List TensorDesc))
    (first_output_buffer_dtype : DType)
    (outputs : List (String × String × Nat))
    (output_shapes : String → List Nat) : Option IoBinding :=
  if input_ids.contiguous then
    match bind_one "input_ids" input_ids.device BindDType.longlong
        input_ids.shape input_ids.data_ptr with
    | none => none
    | some ids_b =>
      let float_type := if first_output_buffer_dtype = DType.float16
        then BindDType.npfloat16 else BindDType.npfloat32
      let past_bs := match past with
        | none => some []
        | some ps => bindPastInputs input_ids.data_ptr float_type ps 0
      match past_bs with
      | none => none
      | some past_b =>
        let mask_b : Option (Option Binding) := match attention_mask with
          | none => some none
          | some m =>
            if m.contiguous then
              match bind_one "attention_mask" m.device float_type m.shape m.data_ptr with
              | none => none
              | some b => some (some b)
            else none
        match mask_b with
        | none => none
        | some mask_binding =>
          let pos_b : Option (Option Binding) := match position_ids with
            | none => some none
            | some p =>
              if p.contiguous then
                match bind_one "position_ids" p.device BindDType.longlong p.shape p.data_ptr with
                | none => none
                | some b => some (some b)
              else none
          match pos_b with
          | none => none
          | some pos_binding =>
            match bindOutputs float_type outputs output_shapes with
            | none => none
            | some out_bs =>
              some { input_ids_binding := ids_b
                     past_bindings := past_b
                     attention_mask_binding := mask_binding
                     position_ids_binding := pos_binding
                     output_bindings := out_bs }
  else none

/-! ### Spec-side definitions (for refinement statements) -/

/-- Position ids as the spec words them, pointwise: entry `t` of row `b`
is the cumulative sum of the mask row up to absolute position
`cache_len + t`, minus 1, floored at 0; the first `cache_len` columns are
dropped.  Stated independently of the implementation's running-scan shape,
to be compared with it. -/
def specPositionIds (mask : List (List ℚ)) (cache_len : Nat) : List (List Int) :=
  mask.map (fun row =>
    (List.range (row.length - cache_len)).map (fun t =>
      max (((row.take (cache_len + t + 1)).map toLong).sum - 1) 0))

/-- Element-wise tolerance predicate of the spec:
`|a - b| <= atol + rtol * |b|` for index-aligned elements (`b` the
reference). -/
def pairwiseClose (a b : List ℚ) (rtol atol : ℚ) : Prop :=
  ∀ p ∈ a.zip b, |p.1 - p.2| ≤ atol + rtol * |p.2|

/-! ## Theorems -/

/-- Helper: the trial-pass counter equals the count of true verdicts. -/
theorem test_parity_passed_eq_count (trial_results : List Bool) :
    test_parity_passed trial_results = trial_results.count true := by
  have general : ∀ (rs : List Bool) (acc : Nat),
      rs.foldl (fun acc is_all_close => if is_all_close then acc + 1 else acc) acc =
        acc + rs.count true := by
    intro rs
    induction rs with
    | nil => intro acc; simp
    | cons b rs ih =>
      intro acc
      cases b
      · simp [List.count_cons, ih]
      · simp [List.count_cons, ih]
        omega
  simpa [test_parity_passed] using general trial_results 0

/-- C1: `test_parity` is claimed to run the candidate engine in bound-buffer
mode on every trial when `use_io_binding` is true and in value-passing mode
when it is false.  The code has the branch inverted: with
`use_io_binding=true` every trial calls `onnxruntime_inference`
(value-passing), and with `use_io_binding=false` the session's
`output_buffers` is `None` yet the trial calls the bound-IO path, which
dereferences it and raises. -/
theorem claim_C1_mode_dispatch_inverted (num_attention_heads hidden_size num_layer vocab_size : Nat)
    (model_class : ModelClass) (device : String) (is_float16 : Bool) :
    test_parity_candidate_mode true
        (test_parity_session_buffers true num_attention_heads hidden_size num_layer
          vocab_size model_class device is_float16) = some EngineMode.valuePassing ∧
    test_parity_candidate_mode false
        (test_parity_session_buffers false num_attention_heads hidden_size num_layer
          vocab_size model_class device is_float16) = none :=
  ⟨rfl, rfl⟩

/-- C4: `test_parity` returns true iff the number of passed trials equals
the total number of trials; the secondary 95% threshold only affects
logging and never changes the returned verdict (e.g. 96/100 passed is
logged as acceptable while the verdict is still false). -/
theorem claim_C4_verdict_is_strict_equality :
    (∀ trial_results : List Bool,
      test_parity_verdict trial_results = true ↔
        trial_results.count true = trial_results.length) ∧
    test_parity_log_acceptable (List.replicate 96 true ++ List.replicate 4 false) = true ∧
    test_parity_verdict (List.replicate 96 true ++ List.replicate 4 false) = false := by
  have hc : (List.replicate 96 true ++ List.replicate 4 false).count true = 96 := by
    simp [List.count_append, List.count_replicate]
  have hl : (List.replicate 96 true ++ List.replicate 4 false).length = 100 := by
    simp
  refine ⟨fun trial_results => ?_, ?_, ?_⟩
  · simp [test_parity_verdict, test_parity_passed_eq_count]
  · unfold test_parity_log_acceptable
    rw [test_parity_passed_eq_count, hc, hl]
    norm_num
  · unfold test_parity_verdict
    rw [test_parity_passed_eq_count, hc, hl]
    norm_num

/-- C2 counterexample: at the valid shape parameters `batch_size=1`,
`past_sequence_length=0`, `sequence_length=1`, `num_attention_heads=2`,
`hidden_size=4`, `num_layer=2`, `vocab_size=50`, calling `get_dummy_inputs`
with `has_position_ids=true` and `has_attention_mask=false` raises
(`None.long()`), contradicting the claim that it returns normally with
`position_ids` absent. -/
theorem claim_C2_counterexample :
    get_dummy_inputs 1 0 1 2 4 2 50 false true false (fun _ _ => 0) 0 = none :=
  rfl

/-- C2 (amended): for every shape parameters with `vocab_size ≥ 2`, calling
`get_dummy_inputs` with `has_position_ids=true` and
`has_attention_mask=false` raises an error (the position-id derivation
dereferences the absent mask); `position_ids` is absent only when
`has_position_ids=false`, in which case the call succeeds. -/
theorem claim_C2_amended_position_ids_requires_mask
    (batch_size past_sequence_length sequence_length : Nat)
    (num_attention_heads hidden_size num_layer vocab_size : Nat) (float16 : Bool)
    (idsRaw : Nat → Nat → Nat) (padRaw : Nat) (hv : 2 ≤ vocab_size) :
    get_dummy_inputs batch_size past_sequence_length sequence_length
      num_attention_heads hidden_size num_layer vocab_size float16
      true false idsRaw padRaw = none ∧
    (get_dummy_inputs batch_size past_sequence_length sequence_length
      num_attention_heads hidden_size num_layer vocab_size float16
      false false idsRaw padRaw).isSome = true ∧
    (∀ inputs, get_dummy_inputs batch_size past_sequence_length sequence_length
        num_attention_heads hidden_size num_layer vocab_size float16
        false false idsRaw padRaw = some inputs → inputs.position_ids = none) := by
  have hg : ¬(vocab_size - 1 ≤ 0) := by omega
  refine ⟨by simp [get_dummy_inputs, hg], by simp [get_dummy_inputs, hg], ?_⟩
  intro inputs h
  simp only [get_dummy_inputs, hg, if_false, if_true, Bool.false_eq_true,
    Option.some.injEq] at h
  rw [← h]

/-- Witness for C2 (amended) at concrete parameters. -/
theorem claim_C2_amended_witness :
    get_dummy_inputs 1 0 1 2 4 2 50 false true false (fun _ _ => 1) 1 = none ∧
    (get_dummy_inputs 1 0 1 2 4 2 50 false false false (fun _ _ => 1) 1).isSome = true ∧
    (∀ inputs, get_dummy_inputs 1 0 1 2 4 2 50 false false false (fun _ _ => 1) 1 = some inputs →
      inputs.position_ids = none) :=
  claim_C2_amended_position_ids_requires_mask 1 0 1 2 4 2 50 false
    (fun _ _ => 1) 1 (by decide)

/-- Helper: anatomy of a successful `get_dummy_inputs` call. -/
theorem get_dummy_inputs_some_spec
    (batch_size past_sequence_length sequence_length : Nat)
    (num_attention_heads hidden_size num_layer vocab_size : Nat)
    (float16 : Bool) (has_position_ids has_attention_mask : Bool)
    (idsRaw : Nat → Nat → Nat) (padRaw : Nat) (inputs : Gpt2Inputs)
    (hres : get_dummy_inputs batch_size past_sequence_length sequence_length
      num_attention_heads hidden_size num_layer vocab_size float16
      has_position_ids has_attention_mask idsRaw padRaw = some inputs) :
    2 ≤ vocab_size ∧
    inputs.input_ids = dummyInputIds batch_size sequence_length vocab_size idsRaw ∧
    inputs.attention_mask = (if has_attention_mask then
        some (dummyAttentionMask batch_size (past_sequence_length + sequence_length) padRaw)
      else none) ∧
    inputs.position_ids = (if has_position_ids then
        Option.map (fun mask => mask.map (fun row => positionIdsRow row past_sequence_length))
          inputs.attention_mask
      else none) := by
  by_cases hv : vocab_size - 1 ≤ 0
  · simp [get_dummy_inputs, hv] at hres
  · have h2v : 2 ≤ vocab_size := by omega
    cases hpid : has_position_ids
    · simp only [get_dummy_inputs, hv, if_false, hpid, Bool.false_eq_true,
        Option.some.injEq] at hres
      subst hres
      simp [h2v]
    · cases ham : has_attention_mask
      · simp [get_dummy_inputs, hv, hpid, ham] at hres
      · simp only [get_dummy_inputs, hv, if_false, hpid, ham, if_true,
          Option.some.injEq] at hres
        subst hres
        simp [h2v]

/-- C10: every element of the synthesized `input_ids` lies in
`[0, vocab_size - 2]`: the draw is `randint(low=0, high=vocab_size - 1)`
with exclusive upper bound, so the value `vocab_size - 1` is never
generated. -/
theorem claim_C10_input_ids_upper_bound_exclusive
    (batch_size past_sequence_length sequence_length : Nat)
    (num_attention_heads hidden_size num_layer vocab_size : Nat)
    (float16 : Bool) (has_position_ids has_attention_mask : Bool)
    (idsRaw : Nat → Nat → Nat) (padRaw : Nat) (inputs : Gpt2Inputs)
    (hres : get_dummy_inputs batch_size past_sequence_length sequence_length
      num_attention_heads hidden_size num_layer vocab_size float16
      has_position_ids has_attention_mask idsRaw padRaw = some inputs) :
    ∀ row ∈ inputs.input_ids, ∀ x ∈ row, 0 ≤ x ∧ x ≤ (vocab_size : Int) - 2 := by
  obtain ⟨hv, hids, -, -⟩ := get_dummy_inputs_some_spec _ _ _ _ _ _ _ _ _ _ _ _ _ hres
  intro row hrow x hx
  rw [hids] at hrow
  simp only [dummyInputIds, List.mem_map, List.mem_range] at hrow
  obtain ⟨bi, -, rfl⟩ := hrow
  simp only [List.mem_map, List.mem_range] at hx
  obtain ⟨t, -, rfl⟩ := hx
  have h1 : idsRaw bi t % (vocab_size - 1) < vocab_size - 1 :=
    Nat.mod_lt _ (by omega)
  omega

/-- Witness for C10 at concrete parameters, evaluated at the element
`input_ids[0][1] = 1`. -/
theorem claim_C10_witness :
    0 ≤ (1 : Int) ∧ (1 : Int) ≤ (50 : Int) - 2 :=
  claim_C10_input_ids_upper_bound_exclusive 2 1 2 2 4 1 50 false true true
    (fun b t => b + t) 5
    (Gpt2Inputs.mk [[0, 1], [1, 2]] (some [[1, 1], [1, 1]])
      (some [[1, 1, 0], [1, 1, 0]]) [PastTensor.mk [2, 2, 2, 1, 2] DType.float32])
    rfl [0, 1] (by simp) 1 (by simp)

/-- C6: the synthesized `attention_mask` has shape
`(batch_size, past_sequence_length + sequence_length)`; when the total
length is at least 2 exactly one column (the same index in every row) is
zero and all other entries are 1; when the total length is below 2 the mask
is all ones. -/
theorem claim_C6_attention_mask_single_zero_column
    (batch_size past_sequence_length sequence_length : Nat)
    (num_attention_heads hidden_size num_layer vocab_size : Nat)
    (float16 : Bool) (has_position_ids : Bool)
    (idsRaw : Nat → Nat → Nat) (padRaw : Nat) (inputs : Gpt2Inputs)
    (mask : List (List ℚ))
    (hres : get_dummy_inputs batch_size past_sequence_length sequence_length
      num_attention_heads hidden_size num_layer vocab_size float16
      has_position_ids true idsRaw padRaw = some inputs)
    (hmask : inputs.attention_mask = some mask) :
    mask.length = batch_size ∧
    (∀ row ∈ mask, row.length = past_sequence_length + sequence_length) ∧
    (2 ≤ past_sequence_length + sequence_length →
      ∃ col < past_sequence_length + sequence_length,
        ∀ row ∈ mask, ∀ j (hj : j < row.length),
          row.get ⟨j, hj⟩ = if j = col then 0 else 1) ∧
    (past_sequence_length + sequence_length < 2 →
      ∀ row ∈ mask, ∀ q ∈ row, q = 1) := by
  obtain ⟨-, -, hm, -⟩ := get_dummy_inputs_some_spec _ _ _ _ _ _ _ _ _ _ _ _ _ hres
  rw [hmask] at hm
  simp only [if_true, Option.some.injEq] at hm
  subst hm
  refine ⟨by simp [dummyAttentionMask], by simp [dummyAttentionMask], ?_, ?_⟩
  · intro h2
    refine ⟨padRaw % (past_sequence_length + sequence_length),
      Nat.mod_lt _ (by omega), ?_⟩
    intro row hrow j hj
    simp only [dummyAttentionMask, List.mem_map, List.mem_range] at hrow
    obtain ⟨-, -, rfl⟩ := hrow
    simp only [List.get_eq_getElem, List.getElem_map, List.getElem_range]
    by_cases hcol : j = padRaw % (past_sequence_length + sequence_length)
    · simp [hcol, h2]
    · simp [hcol, h2]
  · intro h2
    intro row hrow q hq
    simp only [dummyAttentionMask, List.mem_map, List.mem_range] at hrow
    obtain ⟨-, -, rfl⟩ := hrow
    simp only [List.mem_map, List.mem_range] at hq
    obtain ⟨j, -, rfl⟩ := hq
    have : ¬(2 ≤ past_sequence_length + sequence_length) := by omega
    simp [this]

/-- Witness for C6 at concrete parameters. -/
theorem claim_C6_witness :
    ([[(1 : ℚ), 1, 0], [1, 1, 0]] : List (List ℚ)).length = 2 ∧
    (∀ row ∈ ([[(1 : ℚ), 1, 0], [1, 1, 0]] : List (List ℚ)), row.length = 1 + 2) ∧
    (2 ≤ 1 + 2 →
      ∃ col < 1 + 2,
        ∀ row ∈ ([[(1 : ℚ), 1, 0], [1, 1, 0]] : List (List ℚ)), ∀ j (hj : j < row.length),
          row.get ⟨j, hj⟩ = if j = col then 0 else 1) ∧
    (1 + 2 < 2 →
      ∀ row ∈ ([[(1 : ℚ), 1, 0], [1, 1, 0]] : List (List ℚ)), ∀ q ∈ row, q = 1) :=
  claim_C6_attention_mask_single_zero_column 2 1 2 2 4 1 50 false true
    (fun b t => b + t) 5 _ _ rfl rfl

/-- Helper: length of the running cumulative sum. -/
theorem cumsumFrom_length (l : List Int) (acc : Int) :
    (cumsumFrom acc l).length = l.length := by
  induction l generalizing acc with
  | nil => rfl
  | cons x xs ih => simp [cumsumFrom, ih]

/-- Helper: element `i` of the running cumulative sum is the accumulator
plus the sum of the first `i + 1` elements. -/
theorem cumsumFrom_getElem (l : List Int) (acc : Int) (i : Nat)
    (hi : i < (cumsumFrom acc l).length) :
    (cumsumFrom acc l).get ⟨i, hi⟩ = acc + (l.take (i + 1)).sum := by
  induction l generalizing acc i with
  | nil => simp [cumsumFrom] at hi
  | cons x xs ih =>
    cases i with
    | zero => simp [cumsumFrom]
    | succ n =>
      have hn : n < (cumsumFrom (acc + x) xs).length := by
        simpa [cumsumFrom] using hi
      have := ih (acc + x) n hn
      simp only [cumsumFrom, List.get_eq_getElem, List.getElem_cons_succ,
        List.take_succ_cons, List.sum_cons] at this ⊢
      rw [this]
      ring

/-- Helper: the implementation's position-id row (running scan, subtract,
clamp, drop) equals the spec's pointwise formula. -/
theorem positionIdsRow_eq_spec (row : List ℚ) (cache_len : Nat) :
    positionIdsRow row cache_len =
      (List.range (row.length - cache_len)).map (fun t =>
        max (((row.take (cache_len + t + 1)).map toLong).sum - 1) 0) := by
  apply List.ext_getElem
  · simp [positionIdsRow, cumsum, cumsumFrom_length]
  · intro i h1 h2
    have hlen : i < (cumsumFrom 0 (row.map toLong)).length - cache_len := by
      simpa [positionIdsRow, cumsum] using h1
    have hci : cache_len + i < (cumsumFrom 0 (row.map toLong)).length := by
      omega
    simp only [positionIdsRow, cumsum, List.getElem_drop, List.getElem_map,
      List.getElem_range]
    have := cumsumFrom_getElem (row.map toLong) 0 (cache_len + i) hci
    simp only [List.get_eq_getElem] at this
    rw [this, List.map_take]
    simp [Nat.add_assoc]

/-- C5: whenever the synthesizer emits `position_ids`, they equal the
cumulative sum of the attention mask along the sequence axis, minus 1,
clamped at 0, with the first `past_sequence_length` columns dropped
(`specPositionIds`, worded from the spec); they are a function of the mask
alone, never independently randomized. -/
theorem claim_C5_position_ids_derived_from_mask
    (batch_size past_sequence_length sequence_length : Nat)
    (num_attention_heads hidden_size num_layer vocab_size : Nat)
    (float16 : Bool) (has_position_ids has_attention_mask : Bool)
    (idsRaw : Nat → Nat → Nat) (padRaw : Nat) (inputs : Gpt2Inputs)
    (mask : List (List ℚ)) (pids : List (List Int))
    (hres : get_dummy_inputs batch_size past_sequence_length sequence_length
      num_attention_heads hidden_size num_layer vocab_size float16
      has_position_ids has_attention_mask idsRaw padRaw = some inputs)
    (hmask : inputs.attention_mask = some mask)
    (hpos : inputs.position_ids = some pids) :
    pids = specPositionIds mask past_sequence_length := by
  obtain ⟨-, -, -, hp⟩ := get_dummy_inputs_some_spec _ _ _ _ _ _ _ _ _ _ _ _ _ hres
  rw [hpos, hmask] at hp
  cases hpid : has_position_ids
  · rw [hpid] at hp
    simp at hp
  · rw [hpid] at hp
    simp only [if_true, Option.map_some', Option.some.injEq] at hp
    rw [hp, specPositionIds]
    exact List.map_congr_left (fun row _ => positionIdsRow_eq_spec row past_sequence_length)

/-- Witness for C5 at concrete parameters (mask `[[1,1,0],[1,1,0]]`,
cache length 1). -/
theorem claim_C5_witness :
    ([[1, 1], [1, 1]] : List (List Int)) =
      specPositionIds [[(1 : ℚ), 1, 0], [1, 1, 0]] 1 :=
  claim_C5_position_ids_derived_from_mask 2 1 2 2 4 1 50 false true true
    (fun b t => b + t) 5
    (Gpt2Inputs.mk [[0, 1], [1, 2]] (some [[1, 1], [1, 1]])
      (some [[1, 1, 0], [1, 1, 0]])
      [PastTensor.mk [2, 2, 2, 1, 2] DType.float32])
    [[(1 : ℚ), 1, 0], [1, 1, 0]] [[1, 1], [1, 1]] rfl rfl rfl

/-- Helper: `allclose` decides the element-wise tolerance predicate. -/
theorem allclose_eq_true_iff (a b : List ℚ) (rtol atol : ℚ) :
    allclose a b rtol atol = true ↔ pairwiseClose a b rtol atol := by
  simp [allclose, pairwiseClose, List.all_eq_true]

/-- Helper: a pair drawn from a list zipped with itself has equal
components. -/
theorem mem_zip_self {α : Type} (a : List α) (p : α × α) (hp : p ∈ a.zip a) :
    p.1 = p.2 := by
  induction a with
  | nil => simp at hp
  | cons x xs ih =>
    rw [List.zip_cons_cons, List.mem_cons] at hp
    rcases hp with h | h
    · rw [h]
    · exact ih h

/-- Helper: a tensor is `allclose` to itself at zero tolerance. -/
theorem allclose_self (a : List ℚ) : allclose a a 0 0 = true := by
  rw [allclose_eq_true_iff]
  intro p hp
  rw [mem_zip_self a p hp]
  simp

/-- Helper: the layer loop of `compare_outputs`, when the reference has at
least as many layer outputs as the candidate, and-accumulates `allclose`
over the aligned layer pairs. -/
theorem compareLayers_eq (ortRest : List (List ℚ)) (torchPresent : List (List ℚ))
    (rtol atol : ℚ) (acc : Bool) (hlen : ortRest.length ≤ torchPresent.length) :
    compareLayers ortRest torchPresent rtol atol acc =
      some (acc && (ortRest.zip torchPresent).all
        (fun q => allclose q.1 q.2 rtol atol)) := by
  induction ortRest generalizing torchPresent acc with
  | nil => simp [compareLayers]
  | cons o os ih =>
    cases torchPresent with
    | nil => simp at hlen
    | cons p ps =>
      simp only [compareLayers, List.zip_cons_cons, List.all_cons]
      rw [ih ps _ (by simpa using hlen)]
      rw [Bool.and_assoc]

/-- C3: `compare_outputs` returns true iff the primary output and every
per-layer present output are element-wise within `|a-b| <= atol + rtol*|b|`
(`b` the reference value); comparing an output collection against itself
at zero tolerance returns true. -/
theorem claim_C3_compare_outputs_tolerance :
    (∀ (torch_outputs : TorchOutputs) (o0 : List ℚ) (rest : List (List ℚ))
        (rtol atol : ℚ),
      o0.length = torch_outputs.primary.length →
      rest.length = torch_outputs.present.length →
      (compare_outputs torch_outputs (o0 :: rest) rtol atol = some true ↔
        pairwiseClose o0 torch_outputs.primary rtol atol ∧
          ∀ q ∈ rest.zip torch_outputs.present, pairwiseClose q.1 q.2 rtol atol)) ∧
    (∀ torch_outputs : TorchOutputs,
      compare_outputs torch_outputs
        (torch_outputs.primary :: torch_outputs.present) 0 0 = some true) := by
  constructor
  · intro torch_outputs o0 rest rtol atol hl1 hl2
    simp only [compare_outputs]
    rw [compareLayers_eq _ _ _ _ _ (le_of_eq hl2)]
    simp [List.all_eq_true, allclose_eq_true_iff]
  · intro torch_outputs
    simp only [compare_outputs]
    rw [compareLayers_eq _ _ _ _ _ le_rfl]
    simp only [allclose_self, Bool.true_and, Option.some.injEq]
    rw [List.all_eq_true]
    intro q hq
    obtain ⟨q1, q2⟩ := q
    have h12 : q1 = q2 := mem_zip_self _ _ hq
    subst h12
    exact allclose_self q1

/-- Witness for C3 at a concrete comparison. -/
theorem claim_C3_witness :
    compare_outputs ⟨[(1 : ℚ), 2], [[3]]⟩ [[1, 2], [3]] 0 0 = some true :=
  (claim_C3_compare_outputs_tolerance.1 ⟨[1, 2], [[3]]⟩ [1, 2] [[3]] 0 0
    rfl rfl).mpr
    ⟨(allclose_eq_true_iff _ _ _ _).mp (allclose_self _),
     fun q hq => by
       obtain ⟨q1, q2⟩ := q
       have h12 : q1 = q2 := mem_zip_self _ _ hq
       subst h12
       exact (allclose_eq_true_iff _ _ _ _).mp (allclose_self _)⟩

/-- C7: `auto_increase_buffer_size` succeeds when every required name has a
buffer; for each required name it reallocates a flat buffer of exactly
`prod(shape)` elements with the same dtype and device exactly when the
required element count strictly exceeds the buffer's element count and
otherwise leaves the buffer untouched; names outside the shape map are
untouched, and no buffer's element count ever decreases (dtype and device
are also preserved). -/
theorem claim_C7_auto_increase_buffer_size
    (output_buffers : String → Option Buffer)
    (output_shapes : List (String × List Nat))
    (hnodup : (output_shapes.map Prod.fst).Nodup)
    (hpresent : ∀ ks ∈ output_shapes, (output_buffers ks.1).isSome = true) :
    ∃ bufs', auto_increase_buffer_size output_buffers output_shapes = some bufs' ∧
      (∀ k, k ∉ output_shapes.map Prod.fst → bufs' k = output_buffers k) ∧
      (∀ ks ∈ output_shapes, ∀ b, output_buffers ks.1 = some b →
        bufs' ks.1 = some (if b.numel < prodShape ks.2 then
          Buffer.mk (prodShape ks.2) b.dtype b.device else b)) ∧
      (∀ k b b', output_buffers k = some b → bufs' k = some b' →
        b.numel ≤ b'.numel ∧ b'.dtype = b.dtype ∧ b'.device = b.device) := by
  induction output_shapes generalizing output_buffers with
  | nil =>
    refine ⟨output_buffers, rfl, fun k _ => rfl, by simp, fun k b b' h1 h2 => ?_⟩
    rw [h1] at h2
    cases h2
    exact ⟨le_rfl, rfl, rfl⟩
  | cons ks rest ih =>
    obtain ⟨key, shape⟩ := ks
    have hbuf : (output_buffers key).isSome = true :=
      hpresent (key, shape) (List.mem_cons_self _ _)
    obtain ⟨buffer, hbuffer⟩ := Option.isSome_iff_exists.mp hbuf
    have hnd : (key :: rest.map Prod.fst).Nodup := by simpa using hnodup
    have hkey_notin : key ∉ rest.map Prod.fst := (List.nodup_cons.mp hnd).1
    set upd : String → Option Buffer :=
      if prodShape shape > buffer.numel then
        fun k => if k = key then
            some { numel := prodShape shape, dtype := buffer.dtype, device := buffer.device }
          else output_buffers k
      else output_buffers with hupd
    have hupd_key : upd key = some (if buffer.numel < prodShape shape then
        Buffer.mk (prodShape shape) buffer.dtype buffer.device else buffer) := by
      rw [hupd]
      by_cases hlt : prodShape shape > buffer.numel
      · simp [hlt]
      · simp [hlt, hbuffer]
    have hupd_ne : ∀ k, k ≠ key → upd k = output_buffers k := by
      intro k hk
      rw [hupd]
      by_cases hlt : prodShape shape > buffer.numel
      · simp [hlt, hk]
      · simp [hlt]
    have hstep : auto_increase_buffer_size output_buffers ((key, shape) :: rest) =
        auto_increase_buffer_size upd rest := by
      simp only [auto_increase_buffer_size, hbuffer, hupd]
    have hpresent' : ∀ ks ∈ rest, (upd ks.1).isSome = true := by
      intro ks hks
      have hne : ks.1 ≠ key := by
        intro h
        exact hkey_notin (by
          rw [← h]
          exact List.mem_map_of_mem Prod.fst hks)
      rw [hupd_ne ks.1 hne]
      exact hpresent ks (List.mem_cons_of_mem _ hks)
    obtain ⟨bufs', hrun, huntouched, hrequired, hmono⟩ :=
      ih upd (List.nodup_cons.mp hnd).2 hpresent'
    refine ⟨bufs', by rw [hstep, hrun], ?_, ?_, ?_⟩
    · intro k hk
      have hk1 : k ≠ key := fun h => hk (by simp [h])
      have hk2 : k ∉ rest.map Prod.fst := fun h => hk (by simp [h])
      rw [huntouched k hk2, hupd_ne k hk1]
    · intro ks hks b hb
      rcases List.mem_cons.mp hks with h | h
      · subst h
        rw [hbuffer] at hb
        cases hb
        rw [huntouched key hkey_notin, hupd_key]
      · have hne : ks.1 ≠ key := by
          intro he
          exact hkey_notin (by
            rw [← he]
            exact List.mem_map_of_mem Prod.fst h)
        refine hrequired ks h b ?_
        rw [hupd_ne ks.1 hne]
        exact hb
    · intro k b b' hb hb'
      by_cases hk : k = key
      · subst hk
        rw [hbuffer] at hb
        cases hb
        obtain ⟨h1, h2, h3⟩ := hmono k (if buffer.numel < prodShape shape then
          Buffer.mk (prodShape shape) buffer.dtype buffer.device else buffer) b' hupd_key hb'
        by_cases hlt : buffer.numel < prodShape shape
        · rw [if_pos hlt] at h1 h2 h3
          exact ⟨le_trans (le_of_lt hlt) h1, h2, h3⟩
        · rw [if_neg hlt] at h1 h2 h3
          exact ⟨h1, h2, h3⟩
      · refine hmono k b b' ?_ hb'
        rw [hupd_ne k hk]
        exact hb

/-- Witness for C7 at a concrete buffer map (one buffer of 4 elements,
required shape `[2,3]` = 6 elements). -/
theorem claim_C7_witness :
    ∃ bufs', auto_increase_buffer_size
        (fun k => if k = "logits" then some (Buffer.mk 4 DType.float32 "cuda") else none)
        [("logits", [2, 3])] = some bufs' ∧
      (∀ k, k ∉ ([("logits", [2, 3])] : List (String × List Nat)).map Prod.fst →
        bufs' k =
          (fun k => if k = "logits" then some (Buffer.mk 4 DType.float32 "cuda") else none) k) ∧
      (∀ ks ∈ ([("logits", [2, 3])] : List (String × List Nat)), ∀ b,
        (fun k => if k = "logits" then some (Buffer.mk 4 DType.float32 "cuda") else none) ks.1 =
          some b →
        bufs' ks.1 = some (if b.numel < prodShape ks.2 then
          Buffer.mk (prodShape ks.2) b.dtype b.device else b)) ∧
      (∀ k b b',
        (fun k => if k = "logits" then some (Buffer.mk 4 DType.float32 "cuda") else none) k =
          some b →
        bufs' k = some b' →
        b.numel ≤ b'.numel ∧ b'.dtype = b.dtype ∧ b'.device = b.device) :=
  claim_C7_auto_increase_buffer_size
    (fun k => if k = "logits" then some (Buffer.mk 4 DType.float32 "cuda") else none)
    [("logits", [2, 3])] (by simp) (by
      intro ks hks
      simp only [List.mem_singleton] at hks
      subst hks
      simp)

/-- Helper: `.clone()` bumps the allocation pointer, leaves every
previously allocated cell untouched, and the cloned tensor snapshots the
viewed cells. -/
theorem clone_spec (h : Heap) (p n : Nat) :
    (clone h (TensorRef.mk p n)).1.next = h.next + n ∧
    (∀ a, a < h.next → (clone h (TensorRef.mk p n)).1.data a = h.data a) ∧
    (clone h (TensorRef.mk p n)).2.ptr = h.next ∧
    (clone h (TensorRef.mk p n)).2.numel = n ∧
    readTensor (clone h (TensorRef.mk p n)).1 (clone h (TensorRef.mk p n)).2 =
      readTensor h (TensorRef.mk p n) := by
  refine ⟨rfl, ?_, rfl, rfl, ?_⟩
  · intro a ha
    simp only [clone]
    rw [if_neg]
    omega
  · simp only [clone, readTensor]
    apply List.map_congr_left
    intro i hi
    rw [List.mem_range] at hi
    rw [if_pos ⟨Nat.le_add_right _ _, by omega⟩]
    congr 1
    omega

/-- Helper: overwriting a cell strictly below a tensor's start address does
not change the tensor's contents. -/
theorem readTensor_writeHeap_of_lt (h : Heap) (t : TensorRef) (a : Nat) (v : ℚ)
    (ha : a < t.ptr) : readTensor (writeHeap h a v) t = readTensor h t := by
  apply List.map_congr_left
  intro i hi
  simp only [writeHeap]
  rw [if_neg]
  omega

/-- Helper: the read-back loop only allocates (never moves the allocation
pointer down), never writes to previously allocated cells, and each cloned
output lives in fresh storage and snapshots the first `prod(shape)`
elements of its buffer as they were at call time. -/
theorem get_outputs_from_io_binding_buffer_spec (h : Heap)
    (outputs : List (TensorRef × List Nat)) :
    h.next ≤ (get_outputs_from_io_binding_buffer h outputs).1.next ∧
    (∀ a, a < h.next →
      (get_outputs_from_io_binding_buffer h outputs).1.data a = h.data a) ∧
    List.Forall₂ (fun (o : TensorRef × List Nat) (t : TensorRef) =>
        h.next ≤ t.ptr ∧
        t.ptr + t.numel ≤ (get_outputs_from_io_binding_buffer h outputs).1.next ∧
        (o.1.ptr + prodShape o.2 ≤ h.next →
          readTensor (get_outputs_from_io_binding_buffer h outputs).1 t =
            readTensor h (TensorRef.mk o.1.ptr (prodShape o.2))))
      outputs (get_outputs_from_io_binding_buffer h outputs).2 := by
  induction outputs generalizing h with
  | nil => exact ⟨le_rfl, fun a _ => rfl, List.Forall₂.nil⟩
  | cons o rest ih =>
    obtain ⟨buffer, shape⟩ := o
    obtain ⟨hnext1, hpres1, hptr1, hnumel1, hsnap1⟩ :=
      clone_spec h buffer.ptr (prodShape shape)
    obtain ⟨hnext2, hpres2, hforall2⟩ :=
      ih (clone h (TensorRef.mk buffer.ptr (prodShape shape))).1
    simp only [get_outputs_from_io_binding_buffer, readBackOne]
    refine ⟨?_, ?_, ?_⟩
    · rw [hnext1] at hnext2
      omega
    · intro a ha
      rw [hpres2 a (by omega), hpres1 a ha]
    · constructor
      · refine ⟨by omega, ?_, fun _ => ?_⟩
        · rw [hptr1, hnumel1]
          omega
        rw [← hsnap1]
        apply List.map_congr_left
        intro i hi
        rw [List.mem_range] at hi
        exact hpres2 _ (by omega)
      · refine List.Forall₂.imp ?_ hforall2
        intro o t ht
        refine ⟨by omega, ht.2.1, fun hin => ?_⟩
        rw [ht.2.2 (by omega)]
        unfold readTensor
        dsimp only
        apply List.map_congr_left
        intro i hi
        rw [List.mem_range] at hi
        exact hpres1 _ (by omega)

/-- C8: for every output, `get_outputs_from_io_binding_buffer` returns the
first `prod(shape)` elements of the output's buffer (as they were at call
time) reinterpreted as `shape`, as a copy detached from the live buffer:
any subsequent write into previously allocated storage — in particular into
any of the live buffers — leaves the returned tensors unchanged. -/
theorem claim_C8_read_back_copy_detached (h : Heap)
    (outputs : List (TensorRef × List Nat))
    (hin : ∀ o ∈ outputs, o.1.ptr + o.1.numel ≤ h.next ∧ prodShape o.2 ≤ o.1.numel) :
    List.Forall₂ (fun (o : TensorRef × List Nat) (t : TensorRef) =>
        readTensor (get_outputs_from_io_binding_buffer h outputs).1 t =
          readTensor h (TensorRef.mk o.1.ptr (prodShape o.2)) ∧
        ∀ (a : Nat) (v : ℚ), a < h.next →
          readTensor (writeHeap (get_outputs_from_io_binding_buffer h outputs).1 a v) t =
            readTensor (get_outputs_from_io_binding_buffer h outputs).1 t)
      outputs (get_outputs_from_io_binding_buffer h outputs).2 := by
  obtain ⟨-, -, hforall⟩ := get_outputs_from_io_binding_buffer_spec h outputs
  rw [List.forall₂_iff_get] at hforall ⊢
  obtain ⟨hlen, hget⟩ := hforall
  refine ⟨hlen, fun i h1 h2 => ?_⟩
  obtain ⟨htptr, -, hsnap⟩ := hget i h1 h2
  have hmem := List.get_mem outputs i h1
  obtain ⟨hbound, hprod⟩ := hin _ hmem
  refine ⟨hsnap (by omega), fun a v ha => ?_⟩
  exact readTensor_writeHeap_of_lt _ _ a v (by omega)

/-- Witness for C8 on a concrete heap (cells 0..2 allocated) with two
buffers. -/
theorem claim_C8_witness :
    List.Forall₂ (fun (o : TensorRef × List Nat) (t : TensorRef) =>
        readTensor (get_outputs_from_io_binding_buffer (Heap.mk (fun a => (a : ℚ)) 3)
            [(TensorRef.mk 0 2, [2]), (TensorRef.mk 2 1, [1])]).1 t =
          readTensor (Heap.mk (fun a => (a : ℚ)) 3) (TensorRef.mk o.1.ptr (prodShape o.2)) ∧
        ∀ (a : Nat) (v : ℚ), a < (Heap.mk (fun a => (a : ℚ)) 3).next →
          readTensor (writeHeap (get_outputs_from_io_binding_buffer (Heap.mk (fun a => (a : ℚ)) 3)
              [(TensorRef.mk 0 2, [2]), (TensorRef.mk 2 1, [1])]).1 a v) t =
            readTensor (get_outputs_from_io_binding_buffer (Heap.mk (fun a => (a : ℚ)) 3)
              [(TensorRef.mk 0 2, [2]), (TensorRef.mk 2 1, [1])]).1 t)
      [(TensorRef.mk 0 2, [2]), (TensorRef.mk 2 1, [1])]
      (get_outputs_from_io_binding_buffer (Heap.mk (fun a => (a : ℚ)) 3)
        [(TensorRef.mk 0 2, [2]), (TensorRef.mk 2 1, [1])]).2 :=
  claim_C8_read_back_copy_detached (Heap.mk (fun a => (a : ℚ)) 3)
    [(TensorRef.mk 0 2, [2]), (TensorRef.mk 2 1, [1])] (by decide)

/-- Helper: the past-binding loop succeeds on contiguous past tensors when
the substitute pointer is non-null, and binds, for each past tensor, the
tensor's own pointer unless it is null, in which case the substitute. -/
theorem bindPastInputs_spec (input_ids_ptr : Nat) (float_type : BindDType)
    (past : List TensorDesc) (i : Nat)
    (hc : ∀ p ∈ past, p.contiguous = true) (hp : input_ids_ptr ≠ 0) :
    ∃ bs, bindPastInputs input_ids_ptr float_type past i = some bs ∧
      List.Forall₂ (fun (p : TensorDesc) (b : Binding) =>
        b.ptr = (if p.data_ptr = 0 then input_ids_ptr else p.data_ptr) ∧
        b.ptr ≠ 0) past bs := by
  induction past generalizing i with
  | nil => exact ⟨[], rfl, List.Forall₂.nil⟩
  | cons p ps ih =>
    have hpc : p.contiguous = true := hc p (List.mem_cons_self _ _)
    obtain ⟨bs, hbs, hf⟩ := ih (i + 1) (fun q hq => hc q (List.mem_cons_of_mem _ hq))
    have hptr : (if p.data_ptr = 0 then input_ids_ptr else p.data_ptr) ≠ 0 := by
      by_cases h0 : p.data_ptr = 0
      · simpa [h0] using hp
      · simp [h0]
    refine ⟨Binding.mk ("past_" ++ toString i) p.device float_type p.shape
        (if p.data_ptr = 0 then input_ids_ptr else p.data_ptr) :: bs, ?_, ?_⟩
    · simp only [bindPastInputs, hpc, if_true, bind_one, hptr, if_false, hbs]
    · exact List.Forall₂.cons ⟨rfl, hptr⟩ hf

/-- Helper: the output-binding loop succeeds when every output buffer
pointer is non-null. -/
theorem bindOutputs_spec (float_type : BindDType)
    (outputs : List (String × String × Nat)) (output_shapes : String → List Nat)
    (hout : ∀ o ∈ outputs, o.2.2 ≠ 0) :
    ∃ bs, bindOutputs float_type outputs output_shapes = some bs := by
  induction outputs with
  | nil => exact ⟨[], rfl⟩
  | cons o os ih =>
    obtain ⟨name, device, ptr⟩ := o
    have hptr : ptr ≠ 0 := hout (name, device, ptr) (List.mem_cons_self _ _)
    obtain ⟨bs, hbs⟩ := ih (fun q hq => hout q (List.mem_cons_of_mem _ hq))
    refine ⟨Binding.mk name device float_type (output_shapes name) ptr :: bs, ?_⟩
    simp only [bindOutputs, bind_one, hptr, if_false, hbs]

/-- C9: `prepare_io_binding` on contiguous inputs with a non-null
`input_ids` pointer (and non-null mask/position/output pointers where
present) succeeds, and for every past tensor it binds the tensor's own
pointer unless the tensor reports a null pointer (as an empty past with
`past_sequence_length = 0` does), in which case it binds the `input_ids`
pointer instead; consequently no past input is ever bound to a null
pointer and no error is raised. -/
theorem claim_C9_null_past_pointer_substitution
    (input_ids : TensorDesc) (position_ids attention_mask : Option TensorDesc)
    (past : List TensorDesc) (first_output_buffer_dtype : DType)
    (outputs : List (String × String × Nat)) (output_shapes : String → List Nat)
    (hids_c : input_ids.contiguous = true) (hids_p : input_ids.data_ptr ≠ 0)
    (hpast : ∀ p ∈ past, p.contiguous = true)
    (hmask : ∀ m, attention_mask = some m → m.contiguous = true ∧ m.data_ptr ≠ 0)
    (hpos : ∀ p, position_ids = some p → p.contiguous = true ∧ p.data_ptr ≠ 0)
    (hout : ∀ o ∈ outputs, o.2.2 ≠ 0) :
    ∃ ib, prepare_io_binding input_ids position_ids attention_mask (some past)
        first_output_buffer_dtype outputs output_shapes = some ib ∧
      (∀ b ∈ ib.past_bindings, b.ptr ≠ 0) ∧
      List.Forall₂ (fun (p : TensorDesc) (b : Binding) =>
        b.ptr = if p.data_ptr = 0 then input_ids.data_ptr else p.data_ptr)
        past ib.past_bindings := by
  obtain ⟨past_b, hpast_b, hpast_f⟩ := bindPastInputs_spec input_ids.data_ptr
    (if first_output_buffer_dtype = DType.float16
      then BindDType.npfloat16 else BindDType.npfloat32) past 0 hpast hids_p
  obtain ⟨out_bs, hout_bs⟩ := bindOutputs_spec
    (if first_output_buffer_dtype = DType.float16
      then BindDType.npfloat16 else BindDType.npfloat32) outputs output_shapes hout
  have hb0 : ∀ b ∈ past_b, b.ptr ≠ 0 := by
    intro b hb
    obtain ⟨n, rfl⟩ := List.mem_iff_get.mp hb
    obtain ⟨hlen, hget⟩ := List.forall₂_iff_get.mp hpast_f
    exact (hget n.1 (by omega) n.2).2
  have hforall : List.Forall₂ (fun (p : TensorDesc) (b : Binding) =>
      b.ptr = if p.data_ptr = 0 then input_ids.data_ptr else p.data_ptr) past past_b :=
    hpast_f.imp (fun p b h => h.1)
  cases attention_mask with
  | none =>
    cases position_ids with
    | none =>
      refine ⟨IoBinding.mk
        (Binding.mk "input_ids" input_ids.device BindDType.longlong
          input_ids.shape input_ids.data_ptr) past_b none none out_bs,
        ?_, hb0, hforall⟩
      simp only [prepare_io_binding, bind_one, hids_c, if_true, hids_p,
        if_false, hpast_b, hout_bs]
    | some pos =>
      obtain ⟨hpc, hpp⟩ := hpos pos rfl
      refine ⟨IoBinding.mk
        (Binding.mk "input_ids" input_ids.device BindDType.longlong
          input_ids.shape input_ids.data_ptr) past_b none
        (some (Binding.mk "position_ids" pos.device BindDType.longlong
          pos.shape pos.data_ptr)) out_bs,
        ?_, hb0, hforall⟩
      simp only [prepare_io_binding, bind_one, hids_c, hpc, if_true, hids_p, hpp,
        if_false, hpast_b, hout_bs]
  | some m =>
    obtain ⟨hmc, hmp⟩ := hmask m rfl
    cases position_ids with
    | none =>
      refine ⟨IoBinding.mk
        (Binding.mk "input_ids" input_ids.device BindDType.longlong
          input_ids.shape input_ids.data_ptr) past_b
        (some (Binding.mk "attention_mask" m.device
          (if first_output_buffer_dtype = DType.float16
            then BindDType.npfloat16 else BindDType.npfloat32) m.shape m.data_ptr))
        none out_bs,
        ?_, hb0, hforall⟩
      simp only [prepare_io_binding, bind_one, hids_c, hmc, if_true, hids_p, hmp,
        if_false, hpast_b, hout_bs]
    | some pos =>
      obtain ⟨hpc, hpp⟩ := hpos pos rfl
      refine ⟨IoBinding.mk
        (Binding.mk "input_ids" input_ids.device BindDType.longlong
          input_ids.shape input_ids.data_ptr) past_b
        (some (Binding.mk "attention_mask" m.device
          (if first_output_buffer_dtype = DType.float16
            then BindDType.npfloat16 else BindDType.npfloat32) m.shape m.data_ptr))
        (some (Binding.mk "position_ids" pos.device BindDType.longlong
          pos.shape pos.data_ptr)) out_bs,
        ?_, hb0, hforall⟩
      simp only [prepare_io_binding, bind_one, hids_c, hmc, hpc, if_true, hids_p,
        hmp, hpp, if_false, hpast_b, hout_bs]

/-- Witness for C9: one empty past tensor reporting a null data pointer is
bound to the `input_ids` pointer. -/
theorem claim_C9_witness :
    ∃ ib, prepare_io_binding (TensorDesc.mk "cuda" [1, 1] 100 true) none none
        (some [TensorDesc.mk "cuda" [2, 1, 2, 0, 2] 0 true])
        DType.float32 [("logits", "cuda", 500)] (fun _ => [1, 1, 50]) = some ib ∧
      (∀ b ∈ ib.past_bindings, b.ptr ≠ 0) ∧
      List.Forall₂ (fun (p : TensorDesc) (b : Binding) =>
        b.ptr = if p.data_ptr = 0 then (TensorDesc.mk "cuda" [1, 1] 100 true).data_ptr
          else p.data_ptr)
        [TensorDesc.mk "cuda" [2, 1, 2, 0, 2] 0 true] ib.past_bindings :=
  claim_C9_null_past_pointer_substitution
    (TensorDesc.mk "cuda" [1, 1] 100 true) none none
    [TensorDesc.mk "cuda" [2, 1, 2, 0, 2] 0 true]
    DType.float32 [("logits", "cuda", 500)] (fun _ => [1, 1, 50])
    rfl (by decide) (by decide)
    (by intro m h; simp at h) (by intro p h; simp at h) (by decide)

end Gpt2Helper
